import Mathlib

/-!
Shallow embedding of the expression-evaluation pipeline and calculator state
machine of `src/js/modules/Calculator.js` (class `Calculator`), together with
theorems settling the frozen claims about this program.

JavaScript numbers are IEEE doubles; every finite double is a rational, so the
embedding carries finite values exactly as `ℚ` and keeps `NaN` and the two
infinities as separate constructors.  Strings are processed as their character
lists.
-/

set_option maxRecDepth 10000

/- The Batteries rational operations are marked irreducible for elaboration
performance; this development evaluates concrete pipeline runs with `decide`,
which needs them to unfold. -/
set_option allowUnsafeReducibility true
attribute [semireducible] Rat.add Rat.mul Rat.sub Rat.inv Rat.div Rat.neg Rat.ofScientific

namespace WebCalc

/-- Model of a JavaScript number: `NaN`, the two infinities, or a finite value
(carried exactly as a rational; every finite IEEE double is rational). -/
inductive JsNum where
  | nan
  | posInf
  | negInf
  | num (q : ℚ)
deriving DecidableEq

instance {ε α : Type} [DecidableEq ε] [DecidableEq α] : DecidableEq (Except ε α) := fun x y =>
  match x, y with
  | .ok a, .ok b =>
    if h : a = b then isTrue (by rw [h]) else isFalse (by simp [h])
  | .error a, .error b =>
    if h : a = b then isTrue (by rw [h]) else isFalse (by simp [h])
  | .ok _, .error _ => isFalse (by simp)
  | .error _, .ok _ => isFalse (by simp)

/-- Iterative product of the loop `for (let i = 2; i <= num; i++) result *= i`
in `Calculator.factorial` (src/js/modules/Calculator.js:72-75): the product
`2 · 3 · … · n`. -/
def factLoop (n : ℕ) : ℚ :=
  (List.range' 2 (n - 1)).foldl (fun (acc : ℚ) (i : ℕ) => acc * (i : ℚ)) 1

/-- Embedding of `Calculator.factorial` (src/js/modules/Calculator.js:59-77):
rejects non-finite, non-integer or negative inputs, rejects inputs above 170,
returns 1 below 2 and otherwise the iterative product `2·3·…·n`.  A finite
double is an integer exactly when its rational value has denominator 1. -/
def factorial : JsNum → Except String ℚ
  | .num q =>
    if q.den ≠ 1 ∨ q < 0 then
      .error "Factorial is only defined for non-negative integers"
    else if 170 < q then
      .error "Factorial too large (max 170)"
    else if q ≤ 1 then
      .ok 1
    else
      .ok (factLoop q.num.toNat)
  | .nan => .error "Factorial is only defined for non-negative integers"
  | .posInf => .error "Factorial is only defined for non-negative integers"
  | .negInf => .error "Factorial is only defined for non-negative integers"

theorem factLoop_succ (n : ℕ) (h : 1 ≤ n) : factLoop (n + 1) = factLoop n * (n + 1) := by
  unfold factLoop
  have h1 : n + 1 - 1 = (n - 1) + 1 := by omega
  rw [h1, List.range'_concat, List.foldl_append]
  have h2 : 2 + 1 * (n - 1) = n + 1 := by omega
  rw [h2]
  simp only [List.foldl_cons, List.foldl_nil]
  push_cast
  ring

theorem factLoop_eq (n : ℕ) : factLoop n = (Nat.factorial n : ℚ) := by
  induction n with
  | zero => simp [factLoop, Nat.factorial]
  | succ m ih =>
    rcases Nat.eq_zero_or_pos m with hm | hm
    · subst hm; simp [factLoop, Nat.factorial]
    · rw [factLoop_succ m hm, ih, Nat.factorial_succ]
      push_cast
      ring

/-- C1: `factorial(n)` fails (with a `FactorialDomainError`) unless `n` is finite,
a mathematical integer and `0 ≤ n ≤ 170`; it returns `1` for `n ∈ {0, 1}` and the
iterative product `2·3·…·n` (that is, `n!`) for every integer `2 ≤ n ≤ 170`; in
particular `factorial(5) = 120` while `factorial(-1)`, `factorial(2.5)` and
`factorial(171)` all fail. -/
theorem factorial_spec :
    (∀ (q : ℚ), q.den = 1 → 0 ≤ q → q ≤ 170 → ∃ r, factorial (.num q) = .ok r)
    ∧ (∀ n : JsNum, (¬ ∃ q : ℚ, n = .num q ∧ q.den = 1 ∧ 0 ≤ q ∧ q ≤ 170) →
        ∃ m, factorial n = .error m)
    ∧ factorial (.num 0) = .ok 1
    ∧ factorial (.num 1) = .ok 1
    ∧ (∀ k : ℕ, 2 ≤ k → k ≤ 170 → factorial (.num k) = .ok (Nat.factorial k : ℚ))
    ∧ factorial (.num 5) = .ok 120
    ∧ (∃ m, factorial (.num (-1)) = .error m)
    ∧ (∃ m, factorial (.num (5 / 2)) = .error m)
    ∧ (∃ m, factorial (.num 171) = .error m) := by
  refine ⟨?_, ?_, by decide, by decide, ?_, by decide,
    ⟨ "Factorial is only defined for non-negative integers", by decide⟩,
    ⟨ "Factorial is only defined for non-negative integers", by decide⟩,
    ⟨ "Factorial too large (max 170)", by decide⟩⟩
  · intro q hden h0 h170
    simp only [factorial]
    rw [if_neg (by push_neg; exact ⟨hden, h0⟩), if_neg (not_lt.mpr h170)]
    by_cases h1 : q ≤ 1
    · rw [if_pos h1]; exact ⟨1, rfl⟩
    · rw [if_neg h1]; exact ⟨_, rfl⟩
  · intro n hbad
    match n with
    | .nan => exact ⟨_, rfl⟩
    | .posInf => exact ⟨_, rfl⟩
    | .negInf => exact ⟨_, rfl⟩
    | .num q =>
      push_neg at hbad
      have hbad' := hbad q rfl
      simp only [factorial]
      by_cases hden : q.den = 1
      · by_cases h0 : 0 ≤ q
        · have h170 : 170 < q := hbad' hden h0
          rw [if_neg (by push_neg; exact ⟨hden, h0⟩), if_pos h170]
          exact ⟨_, rfl⟩
        · rw [if_pos (Or.inr (not_le.mp h0))]; exact ⟨_, rfl⟩
      · rw [if_pos (Or.inl hden)]; exact ⟨_, rfl⟩
  · intro k h2 h170
    have hden : ((k : ℚ)).den = 1 := Rat.den_natCast k
    have h0 : (0 : ℚ) ≤ (k : ℚ) := by positivity
    have h170' : ((k : ℚ)) ≤ 170 := by exact_mod_cast h170
    have h1 : ¬ ((k : ℚ)) ≤ 1 := by
      push_neg
      exact_mod_cast lt_of_lt_of_le (by norm_num) h2
    simp only [factorial]
    rw [if_neg (by push_neg; exact ⟨hden, h0⟩), if_neg (not_lt.mpr h170'), if_neg h1]
    have hnum : ((k : ℚ)).num.toNat = k := by
      rw [Rat.num_natCast]
      exact Int.toNat_natCast k
    rw [hnum, factLoop_eq]

/-- Concrete instantiation of the guarded parts of `factorial_spec`: the success
clause and the `2 ≤ n ≤ 170` product clause at `n = 5`. -/
theorem factorial_spec_witness :
    ((5 : ℚ).den = 1 ∧ (0 : ℚ) ≤ 5 ∧ (5 : ℚ) ≤ 170 ∧ 2 ≤ 5 ∧ 5 ≤ 170)
    ∧ (∃ r, factorial (.num 5) = .ok r)
    ∧ factorial (.num (5 : ℕ)) = .ok (Nat.factorial 5 : ℚ) :=
  ⟨⟨by decide, by norm_num, by norm_num, by decide, by decide⟩,
    factorial_spec.1 5 (by decide) (by norm_num) (by norm_num),
    factorial_spec.2.2.2.2.1 5 (by decide) (by decide)⟩

/-! Word-boundary string replacement, the embedding of JavaScript
`String.replace` with a `/\bname\b/g` pattern as used by the constant
substitution in `Calculator.evaluate` (src/js/modules/Calculator.js:82-87).
A regex word boundary separates a word character `[A-Za-z0-9_]` from a
non-word character or the string's edge. -/

/-- Regex word character class `\w`: letters, digits and underscore. -/
def isWordChar (c : Char) : Bool := c.isAlphanum || c = '_'

/-- Word boundary on the left of a match position, given the character just
before it (`none` at the start of the string). -/
def prevBoundary : Option Char → Bool
  | none => true
  | some c => !isWordChar c

/-- Word boundary on the right of a match, given the rest of the string. -/
def rightBoundary : List Char → Bool
  | [] => true
  | c :: _ => !isWordChar c

/-- Pattern `p` occurs at the head of `l` followed by a word boundary. -/
def matchTok (p l : List Char) : Bool :=
  (l.take p.length == p) && rightBoundary (l.drop p.length)

/-- Left-to-right scan for a word-boundary occurrence of `p`; `prev` is the
character before the current position, `fuel` bounds the recursion by the
remaining length. -/
def scanTokAux (p : List Char) : Option Char → ℕ → List Char → Bool
  | _, _, [] => false
  | _, 0, _ => false
  | prev, fuel + 1, c :: rest =>
    (prevBoundary prev && matchTok p (c :: rest)) || scanTokAux p (some c) fuel rest

/-- Decidable test for a whole-word occurrence of `p` in `s`. -/
def scanToken (p s : String) : Bool := scanTokAux p.data none s.data.length s.data

/-- Global word-boundary replacement scan: on a match, emit `v` and continue
after the matched characters of the original string (as JavaScript
`String.replace` with a `g` flag does). -/
def replaceWordAux (p v : List Char) : Option Char → ℕ → List Char → List Char
  | _, _, [] => []
  | _, 0, l => l
  | prev, fuel + 1, c :: rest =>
    if prevBoundary prev && matchTok p (c :: rest) then
      v ++ replaceWordAux p v (some ((p.getLast?).getD c)) fuel ((c :: rest).drop p.length)
    else
      c :: replaceWordAux p v (some c) fuel rest

/-- Embedding of `s.replace(/\bp\b/g, v)` for a word pattern `p`. -/
def replaceWord (p v s : String) : String :=
  ⟨replaceWordAux p.data v.data none s.data.length s.data⟩

/-- Left-boundary condition for a decomposition `A ++ p ++ B`: the character
before `p` is the last of `A`, or `prev` when `A` is empty. -/
def leftOKb (prev : Option Char) (A : List Char) : Bool :=
  match A.getLast? with
  | none => prevBoundary prev
  | some x => !isWordChar x

/-- Specification of a whole-word (token) occurrence of `p` in `l` when the
character before `l` is `prev`: some decomposition `l = A ++ p ++ B` has word
boundaries on both sides of `p`. -/
def HasTokenAux (p : List Char) (prev : Option Char) (l : List Char) : Prop :=
  ∃ A B : List Char, l = A ++ p ++ B ∧ leftOKb prev A = true ∧ rightBoundary B = true

/-- Specification of a whole-word occurrence of `p` in the string `s`. -/
def HasToken (p s : String) : Prop := HasTokenAux p.data none s.data

theorem matchTok_iff (p l : List Char) :
    matchTok p l = true ↔ ∃ B, l = p ++ B ∧ rightBoundary B = true := by
  unfold matchTok
  rw [Bool.and_eq_true, beq_iff_eq]
  constructor
  · rintro ⟨h1, h2⟩
    refine ⟨l.drop p.length, ?_, h2⟩
    conv_lhs => rw [← List.take_append_drop p.length l]
    rw [h1]
  · rintro ⟨B, rfl, hB⟩
    constructor
    · exact List.take_left p B
    · rw [List.drop_left]
      exact hB

theorem hasTokenAux_nil (p : List Char) (hp : p ≠ []) (prev : Option Char) :
    ¬ HasTokenAux p prev [] := by
  rintro ⟨A, B, habs, -, -⟩
  have := congrArg List.length habs
  simp [List.length_append] at this
  exact hp (List.length_eq_zero.mp (by omega))

theorem getLast?_cons_ne_none (a : Char) (A : List Char) : (a :: A).getLast? ≠ none := by
  induction A generalizing a with
  | nil => simp
  | cons b A' ih => rw [List.getLast?_cons_cons]; exact ih b

theorem leftOKb_cons (prev : Option Char) (c : Char) (A : List Char) :
    leftOKb prev (c :: A) = leftOKb (some c) A := by
  cases A with
  | nil => rfl
  | cons a A' =>
    obtain ⟨x, hx⟩ := Option.ne_none_iff_exists'.mp (getLast?_cons_ne_none a A')
    simp [leftOKb, List.getLast?_cons_cons, hx]

theorem hasTokenAux_cons (p : List Char) (_hp : p ≠ []) (prev : Option Char)
    (c : Char) (rest : List Char) :
    HasTokenAux p prev (c :: rest) ↔
      ((prevBoundary prev && matchTok p (c :: rest)) = true ∨
        HasTokenAux p (some c) rest) := by
  constructor
  · rintro ⟨A, B, heq, hleft, hright⟩
    cases A with
    | nil =>
      left
      rw [Bool.and_eq_true]
      refine ⟨?_, (matchTok_iff p (c :: rest)).mpr ⟨B, by simpa using heq, hright⟩⟩
      simpa [leftOKb] using hleft
    | cons a A' =>
      right
      rw [List.cons_append, List.cons_append, List.cons.injEq] at heq
      obtain ⟨rfl, hrest⟩ := heq
      rw [leftOKb_cons] at hleft
      exact ⟨A', B, by simpa using hrest, hleft, hright⟩
  · rintro (h | ⟨A', B, hrest, hleft, hright⟩)
    · rw [Bool.and_eq_true] at h
      obtain ⟨hprev, hmt⟩ := h
      obtain ⟨B, heq, hB⟩ := (matchTok_iff p (c :: rest)).mp hmt
      exact ⟨[], B, by simpa using heq, by simpa [leftOKb] using hprev, hB⟩
    · exact ⟨c :: A', B, by simp [hrest], by rw [leftOKb_cons]; exact hleft, hright⟩

theorem scanTokAux_iff (p : List Char) (hp : p ≠ []) :
    ∀ (fuel : ℕ) (prev : Option Char) (l : List Char), l.length ≤ fuel →
      (scanTokAux p prev fuel l = true ↔ HasTokenAux p prev l) := by
  intro fuel
  induction fuel with
  | zero =>
    intro prev l hl
    have : l = [] := List.length_eq_zero.mp (by omega)
    subst this
    simp [scanTokAux, hasTokenAux_nil p hp prev]
  | succ n ih =>
    intro prev l hl
    cases l with
    | nil => simp [scanTokAux, hasTokenAux_nil p hp prev]
    | cons c rest =>
      rw [hasTokenAux_cons p hp prev c rest]
      have hr : rest.length ≤ n := by simpa using hl
      simp only [scanTokAux, Bool.or_eq_true]
      rw [ih (some c) rest hr]

theorem replaceWordAux_eq_self (p v : List Char) (hp : p ≠ []) :
    ∀ (fuel : ℕ) (prev : Option Char) (l : List Char),
      ¬ HasTokenAux p prev l → replaceWordAux p v prev fuel l = l := by
  intro fuel
  induction fuel with
  | zero =>
    intro prev l _
    cases l <;> rfl
  | succ n ih =>
    intro prev l hno
    cases l with
    | nil => rfl
    | cons c rest =>
      rw [hasTokenAux_cons p hp prev c rest] at hno
      push_neg at hno
      obtain ⟨h1, h2⟩ := hno
      simp only [replaceWordAux]
      rw [if_neg (by simpa using h1)]
      rw [ih (some c) rest h2]

theorem replaceWord_eq_self (p v s : String) (hp : p.data ≠ []) (h : ¬ HasToken p s) :
    replaceWord p v s = s := by
  unfold replaceWord
  rw [replaceWordAux_eq_self p.data v.data hp s.data.length none s.data h]

theorem hasToken_iff_scanToken (p s : String) (hp : p.data ≠ []) :
    HasToken p s ↔ scanToken p s = true :=
  (scanTokAux_iff p.data hp s.data.length none s.data le_rfl).symm

theorem replaceWord_whole (p v : String) (hp : p.data ≠ [])
    (hmt : matchTok p.data p.data = true) : replaceWord p v p = v := by
  unfold replaceWord
  rcases hd : p.data with - | ⟨c, rest⟩
  · exact absurd hd hp
  · rw [hd] at hmt
    simp only [List.length_cons, replaceWordAux]
    rw [if_pos (by simp [prevBoundary, hmt])]
    have hdrop : (c :: rest).drop ((c :: rest).length) = [] := List.drop_length (c :: rest)
    simp only [List.length_cons] at hdrop
    rw [hdrop]
    simp [replaceWordAux]

/-- Decimal strings that JavaScript produces for the constants of the table in
src/js/modules/Calculator.js:12-16 (`Math.PI`, `Math.E`, `(1+Math.sqrt(5))/2`)
when `String.replace` coerces them for interpolation into the expression. -/
def piStr : String := "3.141592653589793"

/-- Decimal string of `Math.E` as coerced by `String.replace`. -/
def eStr : String := "2.718281828459045"

/-- Decimal string of the golden ratio `(1 + Math.sqrt(5)) / 2` as coerced by
`String.replace`. -/
def phiStr : String := "1.618033988749895"

/-- Modelled from the spec: JavaScript's number-to-string coercion, which the
source applies when interpolating `lastResult`, a factorial value or a result
into a string.  Faithful for the integral values the claims exercise (an
integral double prints without a decimal point); the digits of a non-integral
value are inspected by no claim, so that branch only has to be a function of
the value. -/
def jsNumToString (q : ℚ) : String :=
  if q.den = 1 then toString q.num else toString q.num ++ "/" ++ toString q.den

/-- Constant-substitution stage of `Calculator.evaluate`
(src/js/modules/Calculator.js:82-87): four sequential global word-boundary
replacements, `ans` replaced by `this.lastResult || 0` coerced to a string. -/
def substituteConstants (last : Option ℚ) (s : String) : String :=
  replaceWord "ans" (jsNumToString ((last).getD 0))
    (replaceWord "phi" phiStr (replaceWord "e" eStr (replaceWord "pi" piStr s)))

/-- C4: constant substitution replaces only whole-word (token) occurrences of
`pi`, `e`, `phi`, `ans`: a word-boundary replacement leaves every string with
no whole-word occurrence of its pattern unchanged (so an `e` inside a longer
identifier such as `exp(` is never substituted); `ans` resolves to
`lastResult`, or `0` when no last result exists; `pi` is replaced by its
numeric value. -/
theorem substitution_whole_word :
    (∀ p v s : String, p.data ≠ [] → ¬ HasToken p s → replaceWord p v s = s)
    ∧ (∀ last : Option ℚ, substituteConstants last "exp(2)" = "exp(2)")
    ∧ (∀ last : Option ℚ, substituteConstants last "ans" = jsNumToString ((last).getD 0))
    ∧ substituteConstants (some 7) "ans" = "7"
    ∧ substituteConstants none "ans" = "0"
    ∧ substituteConstants none "pi" = "3.141592653589793" := by
  refine ⟨replaceWord_eq_self, ?_, ?_, ?_, by decide, by decide⟩
  · intro last
    simp only [substituteConstants]
    have h1 : replaceWord "phi" phiStr (replaceWord "e" eStr (replaceWord "pi" piStr "exp(2)"))
        = "exp(2)" := by decide
    rw [h1]
    refine replaceWord_eq_self "ans" _ "exp(2)" (by decide) ?_
    rw [hasToken_iff_scanToken "ans" "exp(2)" (by decide)]
    decide
  · intro last
    simp only [substituteConstants]
    have h1 : replaceWord "phi" phiStr (replaceWord "e" eStr (replaceWord "pi" piStr "ans"))
        = "ans" := by decide
    rw [h1]
    exact replaceWord_whole "ans" _ (by decide) (by decide)
  · simp only [substituteConstants]
    have h1 : replaceWord "phi" phiStr (replaceWord "e" eStr (replaceWord "pi" piStr "ans"))
        = "ans" := by decide
    rw [h1]
    rw [replaceWord_whole "ans" _ (by decide) (by decide)]
    decide

/-- Concrete instantiation of the guarded clause of `substitution_whole_word`:
the `e` of `exp(2)` is embedded in a longer identifier, so the `e`-replacement
step leaves the string unchanged. -/
theorem substitution_whole_word_witness :
    ¬ HasToken "e" "exp(2)" ∧ replaceWord "e" eStr "exp(2)" = "exp(2)" := by
  have h : ¬ HasToken "e" "exp(2)" := by
    rw [hasToken_iff_scanToken "e" "exp(2)" (by decide)]
    decide
  exact ⟨h, substitution_whole_word.1 "e" eStr "exp(2)" (by decide) h⟩

/-! Embedding of `Calculator.isValidExpression`
(src/js/modules/Calculator.js:226-252) and its helper
`Calculator.hasBalancedParentheses` (src/js/modules/Calculator.js:254-262). -/

/-- Character class `[+\-*/]` of the consecutive-operator regexes. -/
def isArithOp (c : Char) : Bool := c = '+' || c = '-' || c = '*' || c = '/'

/-- Character class `[+*/]`, the second position of `/[+\-*\/]{1}[+*\/]/`. -/
def isOpTail (c : Char) : Bool := c = '+' || c = '*' || c = '/'

/-- Scan for two adjacent characters satisfying `f` then `g`, the test of a
regex `/fg/` built from two character classes. -/
def hasPairP (f g : Char → Bool) : List Char → Bool
  | [] => false
  | a :: rest =>
    (match rest with
      | b :: _ => f a && g b
      | [] => false)
    || hasPairP f g rest

/-- Scan for three adjacent characters satisfying `f`, the test of
`/([+\-*\/]{3,})/` (a longer run contains a run of three). -/
def hasTripleP (f : Char → Bool) : List Char → Bool
  | [] => false
  | a :: rest =>
    (match rest with
      | b :: c :: _ => f a && f b && f c
      | _ => false)
    || hasTripleP f rest

theorem hasPairP_iff (f g : Char → Bool) (l : List Char) :
    hasPairP f g l = true ↔
      ∃ A B : List Char, ∃ a b : Char,
        l = A ++ a :: b :: B ∧ f a = true ∧ g b = true := by
  induction l with
  | nil => simp [hasPairP]
  | cons x rest ih =>
    simp only [hasPairP, Bool.or_eq_true]
    constructor
    · rintro (h | h)
      · match rest, h with
        | b :: B, h =>
          rw [Bool.and_eq_true] at h
          exact ⟨[], B, x, b, rfl, h.1, h.2⟩
      · obtain ⟨A, B, a, b, heq, hf, hg⟩ := ih.mp h
        exact ⟨x :: A, B, a, b, by simp [heq], hf, hg⟩
    · rintro ⟨A, B, a, b, heq, hf, hg⟩
      cases A with
      | nil =>
        left
        simp only [List.nil_append, List.cons.injEq] at heq
        obtain ⟨rfl, heq2⟩ := heq
        cases rest with
        | nil => simp at heq2
        | cons y rest' =>
          simp only [List.cons.injEq] at heq2
          obtain ⟨rfl, -⟩ := heq2
          simp [hf, hg]
      | cons a0 A' =>
        right
        simp only [List.cons_append, List.cons.injEq] at heq
        exact ih.mpr ⟨A', B, a, b, heq.2, hf, hg⟩

theorem hasTripleP_iff (f : Char → Bool) (l : List Char) :
    hasTripleP f l = true ↔
      ∃ A B : List Char, ∃ a b c : Char,
        l = A ++ a :: b :: c :: B ∧ f a = true ∧ f b = true ∧ f c = true := by
  induction l with
  | nil => simp [hasTripleP]
  | cons x rest ih =>
    simp only [hasTripleP, Bool.or_eq_true]
    constructor
    · rintro (h | h)
      · match rest, h with
        | b :: c :: B, h =>
          rw [Bool.and_eq_true, Bool.and_eq_true] at h
          exact ⟨[], B, x, b, c, rfl, h.1.1, h.1.2, h.2⟩
      · obtain ⟨A, B, a, b, c, heq, h1, h2, h3⟩ := ih.mp h
        exact ⟨x :: A, B, a, b, c, by simp [heq], h1, h2, h3⟩
    · rintro ⟨A, B, a, b, c, heq, h1, h2, h3⟩
      cases A with
      | nil =>
        left
        simp only [List.nil_append, List.cons.injEq] at heq
        obtain ⟨rfl, heq2⟩ := heq
        match rest, heq2 with
        | y :: z :: rest', heq2 =>
          simp only [List.cons.injEq] at heq2
          obtain ⟨rfl, rfl, -⟩ := heq2
          simp [h1, h2, h3]
      | cons a0 A' =>
        right
        simp only [List.cons_append, List.cons.injEq] at heq
        exact ih.mpr ⟨A', B, a, b, c, heq.2, h1, h2, h3⟩

/-- Whitespace class `\s` of the validation regexes, for the characters that
can reach them here. -/
def jsIsSpace (c : Char) : Bool :=
  c = ' ' || c = '\t' || c = '\n' || c = '\r' || c = '\x0b' || c = '\x0c'

/-- Character class of the allow-list regex
`/^[0-9+\-*\/().\s,Math.sincostalogqrtbcexpfloorundefinedPI*]*$/` shared by
`isValidExpression` (src/js/modules/Calculator.js:229) and `safeEvaluate`
(src/js/modules/Calculator.js:217): digits, the operators and brackets, dot,
comma, whitespace, and the individual letters of the spelled-out words. -/
def validChar (c : Char) : Bool :=
  c.isDigit || jsIsSpace c ||
    [ '+', '-', '*', '/', '(', ')', '.', ',',
      'M', 'a', 't', 'h', 's', 'i', 'n', 'c', 'o', 'l', 'g', 'q', 'r', 'b',
      'e', 'x', 'p', 'f', 'u', 'd', 'P', 'I'].contains c

/-- Depth-counter loop of `Calculator.hasBalancedParentheses`
(src/js/modules/Calculator.js:254-262): fails as soon as the count dips below
zero, succeeds when it ends at zero. -/
def balancedAux : ℤ → List Char → Bool
  | count, [] => count == 0
  | count, c :: rest =>
    let count' := if c = '(' then count + 1 else if c = ')' then count - 1 else count
    if count' < 0 then false else balancedAux count' rest

/-- Embedding of `Calculator.hasBalancedParentheses`. -/
def hasBalancedParentheses (s : String) : Bool := balancedAux 0 s.data

/-- Embedding of `Calculator.isValidExpression`
(src/js/modules/Calculator.js:226-252): balanced parentheses, the character
allow-list, no run of three arithmetic operators
(`/([+\-*\/]{3,})/`), and no operator followed by one of `+ * /`
(`/[+\-*\/]{1}[+*\/]/`) unless the whole string contains `**` somewhere
(`/\*\*/`). -/
def isValidExpression (s : String) : Bool :=
  hasBalancedParentheses s &&
  s.data.all validChar &&
  !(hasTripleP isArithOp s.data) &&
  !(hasPairP isArithOp isOpTail s.data && !(hasPairP (· == '*') (· == '*') s.data))

/-! Modelled from the spec: the numeric evaluation stage.  `safeEvaluate`
(src/js/modules/Calculator.js:223) hands the rewritten, validated string to a
JavaScript `Function` constructor; that engine is not part of the repository,
so its arithmetic on the fragment that reaches it (decimal literals,
`+ - * / **`, unary signs, parentheses) is modelled here over exact values. -/

/-- Decimal digits folded into a natural number. -/
def digitsToNat (ds : List Char) : ℕ :=
  ds.foldl (fun a c => a * 10 + (c.toNat - ('0').toNat)) 0

/-- Modelled from the spec: JavaScript negation. -/
def jsNeg : JsNum → JsNum
  | .nan => .nan
  | .posInf => .negInf
  | .negInf => .posInf
  | .num a => .num (-a)

/-- Modelled from the spec: JavaScript addition; NaN propagates, opposite
infinities give NaN, an infinity absorbs a finite value. -/
def jsAdd : JsNum → JsNum → JsNum
  | .nan, _ => .nan
  | _, .nan => .nan
  | .posInf, .negInf => .nan
  | .negInf, .posInf => .nan
  | .posInf, _ => .posInf
  | _, .posInf => .posInf
  | .negInf, _ => .negInf
  | _, .negInf => .negInf
  | .num a, .num b => .num (a + b)

/-- Modelled from the spec: JavaScript subtraction, `a - b = a + (-b)`. -/
def jsSub (a b : JsNum) : JsNum := jsAdd a (jsNeg b)

/-- Modelled from the spec: JavaScript multiplication; NaN propagates, an
infinity times zero is NaN, otherwise signs multiply. -/
def jsMul : JsNum → JsNum → JsNum
  | .nan, _ => .nan
  | _, .nan => .nan
  | .posInf, .posInf => .posInf
  | .posInf, .negInf => .negInf
  | .negInf, .posInf => .negInf
  | .negInf, .negInf => .posInf
  | .posInf, .num b => if 0 < b then .posInf else if b < 0 then .negInf else .nan
  | .num a, .posInf => if 0 < a then .posInf else if a < 0 then .negInf else .nan
  | .negInf, .num b => if 0 < b then .negInf else if b < 0 then .posInf else .nan
  | .num a, .negInf => if 0 < a then .negInf else if a < 0 then .posInf else .nan
  | .num a, .num b => .num (a * b)

/-- Modelled from the spec: JavaScript division; NaN propagates, an infinity
over an infinity is NaN, a nonzero finite value over (positive) zero is a
signed infinity, zero over zero is NaN.  JavaScript's negative zero is not
distinguished; no claim exercises it. -/
def jsDiv : JsNum → JsNum → JsNum
  | .nan, _ => .nan
  | _, .nan => .nan
  | .posInf, .posInf => .nan
  | .posInf, .negInf => .nan
  | .negInf, .posInf => .nan
  | .negInf, .negInf => .nan
  | .posInf, .num b => if b < 0 then .negInf else .posInf
  | .negInf, .num b => if b < 0 then .posInf else .negInf
  | .num _, .posInf => .num 0
  | .num _, .negInf => .num 0
  | .num a, .num b =>
    if b = 0 then
      if 0 < a then .posInf else if a < 0 then .negInf else .nan
    else .num (a / b)

/-- Modelled from the spec: JavaScript exponentiation for the fragment the
pipeline can produce; exact for integral exponents, and a non-integral
exponent (exercised by no claim) is a model boundary mapped to NaN. -/
def jsPow (a b : JsNum) : JsNum :=
  match b with
  | .nan => .nan
  | .posInf =>
    match a with
    | .nan => .nan
    | .posInf => .posInf
    | .negInf => .posInf
    | .num x =>
      if 1 < x ∨ x < -1 then .posInf
      else if x = 1 ∨ x = -1 then .nan
      else .num 0
  | .negInf =>
    match a with
    | .nan => .nan
    | .posInf => .num 0
    | .negInf => .num 0
    | .num x =>
      if 1 < x ∨ x < -1 then .num 0
      else if x = 1 ∨ x = -1 then .nan
      else .posInf
  | .num e =>
    if e = 0 then .num 1
    else if e.den = 1 then
      match a with
      | .nan => .nan
      | .posInf => if 0 < e then .posInf else .num 0
      | .negInf =>
        if 0 < e then (if e.num % 2 = 0 then .posInf else .negInf) else .num 0
      | .num x =>
        if x = 0 ∧ e < 0 then .posInf
        else .num (x ^ e.num)
    else .nan

/-- Token alphabet of the modelled arithmetic fragment. -/
inductive Tok where
  | lit (q : ℚ)
  | plus
  | minus
  | star
  | slash
  | dstar
  | lparen
  | rparen
deriving DecidableEq

/-- Lexes a decimal literal (digits with at most one dot) from the head of the
input; two dots in one run, or a lone dot, are a syntax error. -/
def lexNumber (l : List Char) : Option (ℚ × List Char) :=
  let run := l.takeWhile (fun c => c.isDigit || c = '.')
  let rest := l.drop run.length
  let ip := run.takeWhile Char.isDigit
  let tail := run.drop ip.length
  match tail with
  | [] => if ip.isEmpty then none else some ((digitsToNat ip : ℚ), rest)
  | '.' :: fp =>
    if fp.all Char.isDigit then
      if ip.isEmpty && fp.isEmpty then none
      else some ((digitsToNat ip : ℚ) + (digitsToNat fp : ℚ) / ((10 : ℚ) ^ fp.length), rest)
    else none
  | _ => none

/-- Tokenizer of the modelled arithmetic fragment; `**` lexes as one token. -/
def lexAux : ℕ → List Char → Option (List Tok)
  | _, [] => some []
  | 0, _ => none
  | fuel + 1, c :: rest =>
    if jsIsSpace c then lexAux fuel rest
    else if c = '+' then (lexAux fuel rest).map (Tok.plus :: ·)
    else if c = '-' then (lexAux fuel rest).map (Tok.minus :: ·)
    else if c = '/' then (lexAux fuel rest).map (Tok.slash :: ·)
    else if c = '(' then (lexAux fuel rest).map (Tok.lparen :: ·)
    else if c = ')' then (lexAux fuel rest).map (Tok.rparen :: ·)
    else if c = '*' then
      match rest with
      | '*' :: rest' => (lexAux fuel rest').map (Tok.dstar :: ·)
      | _ => (lexAux fuel rest).map (Tok.star :: ·)
    else if c.isDigit || c = '.' then
      match lexNumber (c :: rest) with
      | some (q, rest') => (lexAux fuel rest').map (Tok.lit q :: ·)
      | none => none
    else none

mutual

/-- Additive level of the modelled JavaScript expression grammar. -/
def parseExpr : ℕ → List Tok → Option (JsNum × List Tok)
  | 0, _ => none
  | fuel + 1, ts =>
    match parseTerm fuel ts with
    | none => none
    | some (v, ts') => parseExprTail fuel v ts'

/-- Left-associative chain of `+` and `-`. -/
def parseExprTail : ℕ → JsNum → List Tok → Option (JsNum × List Tok)
  | 0, _, _ => none
  | fuel + 1, v, Tok.plus :: ts =>
    match parseTerm fuel ts with
    | none => none
    | some (w, ts') => parseExprTail fuel (jsAdd v w) ts'
  | fuel + 1, v, Tok.minus :: ts =>
    match parseTerm fuel ts with
    | none => none
    | some (w, ts') => parseExprTail fuel (jsSub v w) ts'
  | _ + 1, v, ts => some (v, ts)

/-- Multiplicative level. -/
def parseTerm : ℕ → List Tok → Option (JsNum × List Tok)
  | 0, _ => none
  | fuel + 1, ts =>
    match parseUnary fuel ts with
    | none => none
    | some (v, ts') => parseTermTail fuel v ts'

/-- Left-associative chain of `*` and `/`. -/
def parseTermTail : ℕ → JsNum → List Tok → Option (JsNum × List Tok)
  | 0, _, _ => none
  | fuel + 1, v, Tok.star :: ts =>
    match parseUnary fuel ts with
    | none => none
    | some (w, ts') => parseTermTail fuel (jsMul v w) ts'
  | fuel + 1, v, Tok.slash :: ts =>
    match parseUnary fuel ts with
    | none => none
    | some (w, ts') => parseTermTail fuel (jsDiv v w) ts'
  | _ + 1, v, ts => some (v, ts)

/-- Unary signs. -/
def parseUnary : ℕ → List Tok → Option (JsNum × List Tok)
  | 0, _ => none
  | fuel + 1, Tok.minus :: ts =>
    match parseUnary fuel ts with
    | none => none
    | some (v, ts') => some (jsNeg v, ts')
  | fuel + 1, Tok.plus :: ts => parseUnary fuel ts
  | fuel + 1, ts => parsePow fuel ts

/-- Right-associative `**`. -/
def parsePow : ℕ → List Tok → Option (JsNum × List Tok)
  | 0, _ => none
  | fuel + 1, ts =>
    match parseAtom fuel ts with
    | none => none
    | some (v, Tok.dstar :: ts') =>
      match parseUnary fuel ts' with
      | none => none
      | some (w, ts'') => some (jsPow v w, ts'')
    | some (v, ts') => some (v, ts')

/-- Literals and parenthesised expressions. -/
def parseAtom : ℕ → List Tok → Option (JsNum × List Tok)
  | 0, _ => none
  | _ + 1, Tok.lit q :: ts => some (.num q, ts)
  | fuel + 1, Tok.lparen :: ts =>
    match parseExpr fuel ts with
    | some (v, Tok.rparen :: ts') => some (v, ts')
    | _ => none
  | _ + 1, _ => none

end

/-- Modelled from the spec: evaluation of the rewritten arithmetic string by
the `Function` constructor in `safeEvaluate`.  A string outside the modelled
fragment (for instance one still containing a `Math.` member) evaluates to
`none`, a model boundary no theorem relies on. -/
def jsEval (s : String) : Option JsNum :=
  match lexAux s.data.length s.data with
  | none => none
  | some toks =>
    match parseExpr (5 * toks.length + 5) toks with
    | some (v, []) => some v
    | _ => none

/-! Embedding of `Calculator.processFunctionCalls`
(src/js/modules/Calculator.js:122-190).  Every rewrite there uses a regex of
the one shape `\bname\s*\(([^)]+)\)` with a replacement callback; the callback
may throw, and the thrown error aborts the whole evaluation. -/

/-- Matches `name\s*\(([^)]+)\)` at the head of `l`: the name, optional
whitespace, an opening parenthesis, one or more non-`)` characters, and the
closing parenthesis.  Returns the argument characters and the rest. -/
def matchCallAt (name l : List Char) : Option (List Char × List Char) :=
  if l.take name.length == name then
    match (l.drop name.length).dropWhile jsIsSpace with
    | '(' :: l2 =>
      let args := l2.takeWhile (fun c => c ≠ ')')
      match l2.drop args.length with
      | ')' :: rest => if args.isEmpty then none else some (args, rest)
      | _ => none
    | _ => none
  else none

/-- Global scan of `s.replace(/\bname\s*\(([^)]+)\)/g, mk)`: on a match (the
`\b` needs a non-word character or the string's start before the name) the
callback's result is emitted and the scan continues after the match; a
callback error aborts. -/
def replaceCallAux (name : List Char) (mk : String → Except String String) :
    Option Char → ℕ → List Char → Except String (List Char)
  | _, _, [] => .ok []
  | _, 0, l => .ok l
  | prev, fuel + 1, c :: rest =>
    match prevBoundary prev, matchCallAt name (c :: rest) with
    | true, some (args, after) =>
      match mk ⟨args⟩ with
      | .error e => .error e
      | .ok rep =>
        match replaceCallAux name mk (some ')') fuel after with
        | .error e => .error e
        | .ok tail => .ok (rep.data ++ tail)
    | _, _ =>
      match replaceCallAux name mk (some c) fuel rest with
      | .error e => .error e
      | .ok tail => .ok (c :: tail)

/-- String-level wrapper of `replaceCallAux`. -/
def replaceCall (name : String) (mk : String → Except String String)
    (s : String) : Except String String :=
  match replaceCallAux name.data mk none s.data.length s.data with
  | .error e => .error e
  | .ok l => .ok ⟨l⟩

/-- Embedding of `Calculator.isValidFunctionArgs`
(src/js/modules/Calculator.js:206-212): a non-empty string of digits, basic
operators, parentheses, dot, comma and whitespace (`trim` before the regex
test removes only characters the class accepts anyway). -/
def isValidFunctionArgs (args : String) : Bool :=
  (args != "") && args.data.all (fun c =>
    c.isDigit || jsIsSpace c ||
      [ '+', '-', '*', '/', '(', ')', '.', ','].contains c)

/-- Modelled from the spec: JavaScript `parseFloat` on the argument strings
the factorial rewrite passes it (the argument validator leaves no exponent
letter, so the exponent form is not modelled). -/
def parseFloat (s : String) : JsNum :=
  let l := s.data.dropWhile jsIsSpace
  let sl : ℚ × List Char :=
    match l with
    | '-' :: t => (-1, t)
    | '+' :: t => (1, t)
    | _ => (1, l)
  let ip := sl.2.takeWhile Char.isDigit
  match sl.2.drop ip.length with
  | '.' :: t =>
    let fp := t.takeWhile Char.isDigit
    if ip.isEmpty && fp.isEmpty then .nan
    else .num (sl.1 * ((digitsToNat ip : ℚ) + (digitsToNat fp : ℚ) / ((10 : ℚ) ^ fp.length)))
  | _ => if ip.isEmpty then .nan else .num (sl.1 * (digitsToNat ip : ℚ))

/-- Angle mode of the calculator, `this.angleMode` of
src/js/modules/Calculator.js:9. -/
inductive AngleMode where
  | rad
  | deg
deriving DecidableEq

/-- Embedding of `Calculator.getMathEquivalent`
(src/js/modules/Calculator.js:193-203): the mapping sends every name the
generic rewriting loop reaches to itself, and its `|| funcName` default is
also the identity, so the whole function is the identity. -/
def getMathEquivalent (funcName : String) : String := funcName

/-- Function-table names handled by the generic `Math.` rewrite, in the
insertion order of the `functions` object (src/js/modules/Calculator.js:19-51)
minus the eight names the loop skips. -/
def genericNames : List String :=
  [ "asin", "acos", "atan", "log", "log10", "log2", "sqrt", "cbrt", "pow",
    "exp", "abs", "ceil", "floor", "round"]

/-- Embedding of `Calculator.processFunctionCalls`
(src/js/modules/Calculator.js:122-190): the special rewrites for `factorial`,
`reciprocal`, `square`, `cube`, `percent`; the angle-mode dependent rewrites
for `sin`, `cos`, `tan`; then the generic `Math.` rewrite for the remaining
function names. -/
def processFunctionCalls (mode : AngleMode) (s : String) : Except String String := do
  let s1 ← replaceCall "factorial" (fun args =>
    if !(isValidFunctionArgs args) then .error "Invalid arguments for factorial"
    else
      match factorial (parseFloat args) with
      | .error e => .error e
      | .ok r => .ok (jsNumToString r)) s
  let s2 ← replaceCall "reciprocal" (fun args => .ok ("(1/(" ++ args ++ "))")) s1
  let s3 ← replaceCall "square" (fun args => .ok ("Math.pow(" ++ args ++ ", 2)")) s2
  let s4 ← replaceCall "cube" (fun args => .ok ("Math.pow(" ++ args ++ ", 3)")) s3
  let s5 ← replaceCall "percent" (fun args => .ok ("((" ++ args ++ ")/100)")) s4
  let s6 ←
    if mode = AngleMode.deg then do
      let t1 ← replaceCall "sin"
        (fun args => .ok ("Math.sin((" ++ args ++ ") * Math.PI / 180)")) s5
      let t2 ← replaceCall "cos"
        (fun args => .ok ("Math.cos((" ++ args ++ ") * Math.PI / 180)")) t1
      replaceCall "tan"
        (fun args => .ok ("Math.tan((" ++ args ++ ") * Math.PI / 180)")) t2
    else do
      let t1 ← replaceCall "sin" (fun args => .ok ("Math.sin(" ++ args ++ ")")) s5
      let t2 ← replaceCall "cos" (fun args => .ok ("Math.cos(" ++ args ++ ")")) t1
      replaceCall "tan" (fun args => .ok ("Math.tan(" ++ args ++ ")")) t2
  genericNames.foldlM (fun acc name =>
    replaceCall name (fun args =>
      if !(isValidFunctionArgs args) then .error ("Invalid arguments for " ++ name)
      else .ok ("Math." ++ getMathEquivalent name ++ "(" ++ args ++ ")")) acc) s6

/-- Operator-normalization stage of `Calculator.evaluate`
(src/js/modules/Calculator.js:90-94): the caret becomes the power digraph, and
the display glyphs for multiplication, division and minus become their ASCII
operators.  The four sequential global single-character replaces do not
interfere with one another, so one pass models them. -/
def normalizeOperators (s : String) : String :=
  ⟨s.data.foldr (fun c acc =>
    (if c = '^' then [ '*', '*']
     else if c = '×' then [ '*']
     else if c = '÷' then [ '/']
     else if c = '−' then [ '-']
     else [c]) ++ acc) []⟩

/-- Embedding of `Calculator.safeEvaluate`
(src/js/modules/Calculator.js:215-224): the allow-list check, then the
Function-constructor evaluation modelled by `jsEval`. -/
def safeEvaluate (s : String) : Except String JsNum :=
  if !(s.data.all validChar) then .error "Expression contains invalid characters"
  else
    match jsEval s with
    | some v => .ok v
    | none => .error "expression outside the modelled fragment"

/-- Embedding of `Calculator.evaluate` (src/js/modules/Calculator.js:80-119)
before its catch-wrapper: constant substitution, operator normalization,
function-call rewriting, validation, safe evaluation, result classification. -/
def evaluateCore (last : Option ℚ) (mode : AngleMode) (expression : String) :
    Except String ℚ :=
  match processFunctionCalls mode (normalizeOperators (substituteConstants last expression)) with
  | .error e => .error e
  | .ok s3 =>
    if isValidExpression s3 then
      match safeEvaluate s3 with
      | .error e => .error e
      | .ok v =>
        match v with
        | .nan => .error "Result is not a number"
        | .posInf => .error "Result is infinite"
        | .negInf => .error "Result is infinite"
        | .num q => .ok q
    else .error "Invalid expression"

/-- Embedding of `Calculator.evaluate` with its catch-wrapper
(src/js/modules/Calculator.js:116-118), which rethrows every failure as
`Calculation error: <message>`. -/
def evaluate (last : Option ℚ) (mode : AngleMode) (expression : String) :
    Except String ℚ :=
  match evaluateCore last mode expression with
  | .ok v => .ok v
  | .error e => .error ("Calculation error: " ++ e)

/-- C2 counterexample: the string `2+-3` contains two adjacent arithmetic
operators whose adjacency is not the power digraph `**`, yet
`isValidExpression` accepts it and `evaluate` returns `-1` instead of failing
with InvalidExpression (the second character class of the adjacency regex
`/[+\-*\/]{1}[+*\/]/` omits `-`). -/
theorem adjacent_operator_counterexample :
    ("2+-3").data = [ '2'] ++ '+' :: '-' :: [ '3']
    ∧ isArithOp '+' = true
    ∧ isArithOp '-' = true
    ∧ ('+', '-') ≠ ('*', '*')
    ∧ isValidExpression "2+-3" = true
    ∧ evaluate none AngleMode.rad "2+-3" = .ok (-1) := by
  refine ⟨by decide, by decide, by decide, by decide, by decide, by decide⟩

/-- C2 (amended): validation rejects every rewritten string containing a run
of three or more arithmetic operators; it rejects a string containing an
operator followed by one of `+`, `*`, `/` only when the string contains no
`**` anywhere (so an adjacency whose second operator is `-` is always
accepted, and any adjacency is accepted when `**` occurs somewhere in the
string); in particular `2++3` fails with the InvalidExpression error. -/
theorem operator_run_validation :
    (∀ s : String, (∃ A B : List Char, ∃ a b c : Char,
        s.data = A ++ a :: b :: c :: B ∧ isArithOp a = true ∧ isArithOp b = true ∧
          isArithOp c = true) →
      isValidExpression s = false)
    ∧ (∀ s : String, (∃ A B : List Char, ∃ a b : Char,
        s.data = A ++ a :: b :: B ∧ isArithOp a = true ∧ isOpTail b = true) →
        (¬ ∃ A B : List Char, s.data = A ++ '*' :: '*' :: B) →
      isValidExpression s = false)
    ∧ evaluate none AngleMode.rad "2++3" = .error "Calculation error: Invalid expression" := by
  refine ⟨?_, ?_, by decide⟩
  · intro s h
    have h3 : hasTripleP isArithOp s.data = true := (hasTripleP_iff isArithOp s.data).mpr h
    simp [isValidExpression, h3]
  · intro s h hss
    have hpair : hasPairP isArithOp isOpTail s.data = true := (hasPairP_iff _ _ s.data).mpr h
    have hstar : hasPairP (· == '*') (· == '*') s.data = false := by
      by_contra hc
      rw [Bool.not_eq_false] at hc
      obtain ⟨A, B, a, b, heq, ha, hb⟩ := (hasPairP_iff _ _ s.data).mp hc
      rw [beq_iff_eq] at ha hb
      subst ha
      subst hb
      exact hss ⟨A, B, heq⟩
    simp [isValidExpression, hpair, hstar]

/-- Concrete instantiation of the two guarded clauses of
`operator_run_validation`: `1+++2` has a run of three operators, `2++3` has a
`+`-`+` adjacency and contains no `**`. -/
theorem operator_run_validation_witness :
    isValidExpression "1+++2" = false ∧ isValidExpression "2++3" = false := by
  constructor
  · exact operator_run_validation.1 "1+++2"
      ⟨[ '1'], [ '2'], '+', '+', '+', by decide, by decide, by decide, by decide⟩
  · refine operator_run_validation.2.1 "2++3"
      ⟨[ '2'], [ '3'], '+', '+', by decide, by decide, by decide⟩ ?_
    rintro ⟨A, B, heq⟩
    have : hasPairP (· == '*') (· == '*') ("2++3").data = true :=
      (hasPairP_iff _ _ _).mpr ⟨A, B, '*', '*', heq, by decide, by decide⟩
    exact absurd this (by decide)

/-- C3: for every expression whose rewriting succeeds and whose rewritten form
passes validation, `evaluate` classifies the numeric result: NaN fails with
the not-a-number error, an infinity fails with the infinite-result error, and
a finite value is returned; in particular `1/0` fails with the NonFiniteResult
(infinite result) error. -/
theorem result_classification :
    (∀ (last : Option ℚ) (mode : AngleMode) (s s3 : String) (v : JsNum),
      processFunctionCalls mode (normalizeOperators (substituteConstants last s)) = .ok s3 →
      isValidExpression s3 = true →
      jsEval s3 = some v →
      evaluate last mode s =
        match v with
        | .nan => .error "Calculation error: Result is not a number"
        | .posInf => .error "Calculation error: Result is infinite"
        | .negInf => .error "Calculation error: Result is infinite"
        | .num q => .ok q)
    ∧ evaluate none AngleMode.rad "1/0" = .error "Calculation error: Result is infinite" := by
  refine ⟨?_, by decide⟩
  intro last mode s s3 v h1 h2 h3
  have hall : s3.data.all validChar = true := by
    unfold isValidExpression at h2
    rw [Bool.and_eq_true, Bool.and_eq_true, Bool.and_eq_true] at h2
    exact h2.1.1.2
  simp only [evaluate, evaluateCore, h1]
  rw [if_pos h2]
  unfold safeEvaluate
  rw [if_neg (by simp [hall]), h3]
  cases v <;> rfl

/-- Concrete instantiation of the guarded clause of `result_classification` at
the input `1/0`, whose numeric value is the positive infinity. -/
theorem result_classification_witness :
    processFunctionCalls AngleMode.rad (normalizeOperators (substituteConstants none "1/0"))
        = .ok "1/0"
    ∧ isValidExpression "1/0" = true
    ∧ jsEval "1/0" = some JsNum.posInf
    ∧ evaluate none AngleMode.rad "1/0" = .error "Calculation error: Result is infinite" :=
  ⟨by decide, by decide, by decide,
    result_classification.1 none AngleMode.rad "1/0" "1/0" JsNum.posInf
      (by decide) (by decide) (by decide)⟩

/-- C5, the code evaluated at the failing input: in degree mode the rewriting
does convert the argument of `sin` (it emits `Math.sin((arg) * Math.PI / 180)`),
but it rewrites `asin` through the generic loop to a bare `Math.asin(arg)`
call, applying no `180/pi` factor to the result — although the calculator's own
function table (src/js/modules/Calculator.js:23-34) defines exactly that
conversion for the inverse trigonometric functions in degree mode. -/
theorem degree_mode_inverse_trig_rewrite :
    processFunctionCalls AngleMode.deg "sin(90)" = .ok "Math.sin((90) * Math.PI / 180)"
    ∧ processFunctionCalls AngleMode.deg "asin(1)" = .ok "Math.asin(1)" :=
  ⟨by decide, by decide⟩

/-! Embedding of the calculator's mutable state and the action methods the
claims reference (src/js/modules/Calculator.js:3-9 and 338-468). -/

/-- State fields of the `Calculator` class constructor
(src/js/modules/Calculator.js:3-9): the expression buffer, the display result
string, the last result, the memory register, the Fresh/Editing flag
(`isNewExpression = true` is Fresh) and the angle mode. -/
structure Calculator where
  expression : String
  result : String
  lastResult : Option ℚ
  memory : ℚ
  isNewExpression : Bool
  angleMode : AngleMode
deriving DecidableEq

/-- Result object `{expression, result}` returned by a successful
`calculate()` (src/js/modules/Calculator.js:422-425). -/
structure EvalResult where
  expression : String
  result : ℚ
deriving DecidableEq

/-- Embedding of `Calculator.updateDisplay`
(src/js/modules/Calculator.js:496-501): when `!this.lastResult` holds (no last
result, or the falsy last result `0`), the result display becomes the
expression, or `"0"` on an empty buffer. -/
def Calculator.updateDisplay (c : Calculator) : Calculator :=
  if c.lastResult = none ∨ c.lastResult = some 0 then
    { c with result := if c.expression = "" then "0" else c.expression }
  else c

/-- Embedding of `Calculator.backspace` (src/js/modules/Calculator.js:448-453):
drops the last character of a non-empty buffer (`slice(0, -1)`) and refreshes
the display; does nothing at all on an empty buffer.  The method does not
consult `isNewExpression`. -/
def Calculator.backspace (c : Calculator) : Calculator :=
  if 0 < c.expression.data.length then
    Calculator.updateDisplay { c with expression := ⟨c.expression.data.dropLast⟩ }
  else c

/-- Embedding of `Calculator.negate` (src/js/modules/Calculator.js:455-468):
on a non-empty buffer, removes a leading `-` (`substring(1)`) or prepends one;
on an empty buffer with a last result, seeds the buffer with `-(lastResult)`
and enters Editing mode. -/
def Calculator.negate (c : Calculator) : Calculator :=
  if c.expression ≠ "" then
    if c.expression.data.head? = some '-' then
      { c with expression := ⟨c.expression.data.drop 1⟩ }
    else
      { c with expression := "-" ++ c.expression }
  else
    match c.lastResult with
    | some r =>
      { c with expression := "-(" ++ jsNumToString r ++ ")", isNewExpression := false }
    | none => c

/-- Embedding of `Calculator.appendNumber`
(src/js/modules/Calculator.js:338-360): while Fresh, the buffer restarts with
the appended string and the display result is cleared; while Editing, a second
decimal point inside the trailing number (`/[0-9.]+$/`) or a duplicated
leading zero is ignored, and the string appends to the buffer otherwise. -/
def Calculator.appendNumber (c : Calculator) (number : String) : Calculator :=
  if c.isNewExpression then
    { c with expression := number, result := "", isNewExpression := false }
  else
    let currentNumber :=
      (c.expression.data.reverse.takeWhile (fun ch => ch.isDigit || ch = '.')).reverse
    if number = "." ∧ currentNumber.contains '.' then c
    else if number = "0" ∧ c.expression = "0" then c
    else { c with expression := c.expression ++ number }

/-- Embedding of `Calculator.calculate` (src/js/modules/Calculator.js:412-429):
an empty buffer returns null; otherwise the buffer is evaluated, and on
success the result is stored, the display result is set and the machine turns
Fresh; an evaluation error propagates and no field changes.  The pair is the
returned value (or propagated error) together with the post-state. -/
def Calculator.calculate (c : Calculator) :
    Except String (Option EvalResult) × Calculator :=
  if c.expression = "" then (.ok none, c)
  else
    match evaluate c.lastResult c.angleMode c.expression with
    | .ok r =>
      (.ok (some ⟨c.expression, r⟩),
        { c with lastResult := some r, result := jsNumToString r, isNewExpression := true })
    | .error e => (.error e, c)

/-- C6: when the evaluator fails, `calculate` propagates the error and leaves
the whole state — the expression buffer in particular — unchanged, so the user
can correct it; evaluation is all-or-nothing per call. -/
theorem calculate_error_propagates (c : Calculator) (e : String)
    (hne : c.expression ≠ "")
    (herr : evaluate c.lastResult c.angleMode c.expression = .error e) :
    Calculator.calculate c = (.error e, c) := by
  unfold Calculator.calculate
  rw [if_neg hne, herr]

/-- Concrete instantiation of `calculate_error_propagates`: equals on the
buffer `2++3` fails with the wrapped InvalidExpression error and the state
survives unchanged. -/
theorem calculate_error_propagates_witness :
    Calculator.calculate
        { expression := "2++3", result := "", lastResult := none, memory := 0,
          isNewExpression := false, angleMode := AngleMode.rad }
      = (.error "Calculation error: Invalid expression",
        { expression := "2++3", result := "", lastResult := none, memory := 0,
          isNewExpression := false, angleMode := AngleMode.rad }) :=
  calculate_error_propagates _ _ (by decide) (by decide)

/-- C7 counterexample: `backspace` edits the buffer even while the machine is
Fresh.  After a successful equals on `2+3` the machine is Fresh and the buffer
still reads `2+3`; backspace then turns the buffer into `2+` instead of being
a no-op. -/
theorem backspace_fresh_counterexample :
    ((Calculator.calculate
        { expression := "2+3", result := "", lastResult := none, memory := 0,
          isNewExpression := false, angleMode := AngleMode.rad }).2.isNewExpression = true)
    ∧ ((Calculator.backspace (Calculator.calculate
        { expression := "2+3", result := "", lastResult := none, memory := 0,
          isNewExpression := false, angleMode := AngleMode.rad }).2).expression = "2+")
    ∧ ("2+" : String) ≠ "2+3" :=
  ⟨by decide, by decide, by decide⟩

/-- C7 (amended): backspace removes exactly the last character of the
expression buffer whenever the buffer is non-empty — in Fresh mode just as in
Editing mode, and without touching the last result or the mode — and is a
no-op on an empty buffer. -/
theorem backspace_behavior :
    (∀ (c : Calculator) (x : Char), c.expression.data.getLast? = some x →
      (Calculator.backspace c).expression.data ++ [x] = c.expression.data
      ∧ (Calculator.backspace c).lastResult = c.lastResult
      ∧ (Calculator.backspace c).isNewExpression = c.isNewExpression)
    ∧ (∀ c : Calculator, c.expression = "" → Calculator.backspace c = c) := by
  constructor
  · intro c x hx
    have hne : c.expression.data ≠ [] := by
      intro h0
      rw [h0] at hx
      simp at hx
    have hx' : x = c.expression.data.getLast hne := by
      have h2 := List.getLast?_eq_getLast c.expression.data hne
      rw [hx] at h2
      exact Option.some_injective _ h2
    have key : c.expression.data.dropLast ++ [x] = c.expression.data := by
      rw [hx']
      exact List.dropLast_append_getLast hne
    unfold Calculator.backspace
    rw [if_pos (List.length_pos.mpr hne)]
    unfold Calculator.updateDisplay
    split
    · exact ⟨key, rfl, rfl⟩
    · exact ⟨key, rfl, rfl⟩
  · intro c h
    unfold Calculator.backspace
    rw [if_neg (by simp [h])]

/-- Concrete instantiation of the guarded clauses of `backspace_behavior`. -/
theorem backspace_behavior_witness :
    ((Calculator.backspace
        { expression := "2+3", result := "", lastResult := none, memory := 0,
          isNewExpression := false, angleMode := AngleMode.rad }).expression.data ++ [ '3']
      = ("2+3").data)
    ∧ Calculator.backspace
        { expression := "", result := "", lastResult := none, memory := 0,
          isNewExpression := false, angleMode := AngleMode.rad }
      = { expression := "", result := "", lastResult := none, memory := 0,
          isNewExpression := false, angleMode := AngleMode.rad } :=
  ⟨(backspace_behavior.1 _ '3' (by decide)).1, backspace_behavior.2 _ (by decide)⟩

/-- C8 counterexample: negate is not an involution on every non-empty buffer:
on the buffer `--5` each application strips one leading minus, so two
applications give `5`, not the original `--5`. -/
theorem negate_involution_counterexample :
    ((Calculator.negate (Calculator.negate
        { expression := "--5", result := "", lastResult := none, memory := 0,
          isNewExpression := false, angleMode := AngleMode.rad })).expression = "5")
    ∧ ("5" : String) ≠ "--5" :=
  ⟨by decide, by decide⟩

/-- C8 (amended): negate toggles a leading minus sign — prepending one when
the non-empty buffer does not start with `-`, stripping the first character
when it does — and on non-empty buffers that do not start with `-` it is an
involution (negating `5` twice returns `5`); on an empty buffer with a last
result, the buffer becomes `-(lastResult)` and the mode becomes Editing. -/
theorem negate_behavior :
    (∀ c : Calculator, c.expression ≠ "" → c.expression.data.head? ≠ some '-' →
      (Calculator.negate c).expression = "-" ++ c.expression
      ∧ Calculator.negate (Calculator.negate c) = c)
    ∧ (∀ c : Calculator, c.expression.data.head? = some '-' →
      c.expression = "-" ++ (Calculator.negate c).expression)
    ∧ (∀ (c : Calculator) (r : ℚ), c.expression = "" → c.lastResult = some r →
      (Calculator.negate c).expression = "-(" ++ jsNumToString r ++ ")"
      ∧ (Calculator.negate c).isNewExpression = false) := by
  refine ⟨?_, ?_, ?_⟩
  · intro c hne hm
    have h1 : Calculator.negate c = { c with expression := "-" ++ c.expression } := by
      unfold Calculator.negate
      rw [if_pos hne, if_neg hm]
    refine ⟨by rw [h1], ?_⟩
    rw [h1]
    have hdata : ("-" ++ c.expression).data = '-' :: c.expression.data := rfl
    have hne2 : ("-" ++ c.expression) ≠ "" := by
      intro h0
      have := congrArg String.data h0
      rw [hdata] at this
      simp at this
    unfold Calculator.negate
    rw [if_pos hne2]
    rw [if_pos (by rw [hdata]; rfl)]
    show ({ c with expression := (⟨(("-" ++ c.expression).data).drop 1⟩ : String) } : Calculator) = c
    rw [hdata]
    rfl
  · intro c hm
    match hd : c.expression.data with
    | [] => rw [hd] at hm; simp at hm
    | a :: t =>
      rw [hd] at hm
      have ha : a = '-' := by simpa using hm
      subst ha
      have hne : c.expression ≠ "" := by
        intro h0
        rw [h0] at hd
        simp at hd
      unfold Calculator.negate
      rw [if_pos hne, if_pos (by rw [hd]; rfl)]
      show c.expression = "-" ++ (⟨(c.expression.data).drop 1⟩ : String)
      rw [hd]
      have : c.expression = (⟨'-' :: t⟩ : String) := by
        have := congrArg (fun l => (⟨l⟩ : String)) hd
        simpa using this
      rw [this]
      rfl
  · intro c r h0 hr
    unfold Calculator.negate
    rw [if_neg (by simp [h0]), hr]
    exact ⟨rfl, rfl⟩

/-- Concrete instantiation of the guarded clauses of `negate_behavior`:
negating the buffer `5` twice returns it to `5`, and negate on an empty buffer
with last result `5` produces the buffer `-(5)` in Editing mode. -/
theorem negate_behavior_witness :
    (Calculator.negate (Calculator.negate
        { expression := "5", result := "", lastResult := none, memory := 0,
          isNewExpression := false, angleMode := AngleMode.rad })
      = { expression := "5", result := "", lastResult := none, memory := 0,
          isNewExpression := false, angleMode := AngleMode.rad })
    ∧ ((Calculator.negate
        { expression := "", result := "", lastResult := some 5, memory := 0,
          isNewExpression := true, angleMode := AngleMode.rad }).expression = "-(5)")
    ∧ ((Calculator.negate
        { expression := "", result := "", lastResult := some 5, memory := 0,
          isNewExpression := true, angleMode := AngleMode.rad }).isNewExpression = false) := by
  refine ⟨(negate_behavior.1 _ (by decide) (by decide)).2, ?_, ?_⟩
  · have h := (negate_behavior.2.2
      { expression := "", result := "", lastResult := some 5, memory := 0,
        isNewExpression := true, angleMode := AngleMode.rad } 5 rfl rfl).1
    rw [h]
    decide
  · exact (negate_behavior.2.2
      { expression := "", result := "", lastResult := some 5, memory := 0,
        isNewExpression := true, angleMode := AngleMode.rad } 5 rfl rfl).2

/-- C9: after a successful equals action the machine is Fresh, and any digit
or decimal-point append while Fresh discards the old buffer: the new buffer is
exactly the appended string, the mode becomes Editing and the display result
is cleared — it never appends to the old buffer. -/
theorem fresh_restart_after_equals :
    (∀ (c c' : Calculator) (res : EvalResult),
      Calculator.calculate c = (.ok (some res), c') → c'.isNewExpression = true)
    ∧ (∀ (c : Calculator) (d : String), c.isNewExpression = true →
      (Calculator.appendNumber c d).expression = d
      ∧ (Calculator.appendNumber c d).isNewExpression = false
      ∧ (Calculator.appendNumber c d).result = "") := by
  constructor
  · intro c c' res h
    unfold Calculator.calculate at h
    split at h
    · simp at h
    · split at h
      · rw [Prod.mk.injEq] at h
        rw [← h.2]
      · simp at h
  · intro c d hf
    unfold Calculator.appendNumber
    rw [if_pos hf]
    exact ⟨rfl, rfl, rfl⟩

/-- Concrete instantiation of `fresh_restart_after_equals`: equals on `2+3`
succeeds and leaves a Fresh state, and appending `7` to that state restarts
the buffer with exactly `7`. -/
theorem fresh_restart_after_equals_witness :
    (({ expression := "2+3", result := "5", lastResult := some 5, memory := 0,
        isNewExpression := true, angleMode := AngleMode.rad } : Calculator).isNewExpression
      = true)
    ∧ ((Calculator.appendNumber
        { expression := "2+3", result := "5", lastResult := some 5, memory := 0,
          isNewExpression := true, angleMode := AngleMode.rad } "7").expression = "7")
    ∧ ((Calculator.appendNumber
        { expression := "2+3", result := "5", lastResult := some 5, memory := 0,
          isNewExpression := true, angleMode := AngleMode.rad } "7").isNewExpression
      = false) := by
  refine ⟨?_, ?_, ?_⟩
  · exact fresh_restart_after_equals.1
      { expression := "2+3", result := "", lastResult := none, memory := 0,
        isNewExpression := false, angleMode := AngleMode.rad } _ ⟨"2+3", 5⟩ (by decide)
  · exact (fresh_restart_after_equals.2 _ "7" rfl).1
  · exact (fresh_restart_after_equals.2 _ "7" rfl).2.1

/-- C10: with an empty expression buffer, the equals action returns null
without invoking the evaluator, without error, and without changing the last
result, the buffer or the Fresh/Editing mode (the state is returned intact). -/
theorem calculate_empty_returns_null (c : Calculator) (h : c.expression = "") :
    Calculator.calculate c = (.ok none, c) := by
  unfold Calculator.calculate
  rw [if_pos h]

/-- Concrete instantiation of `calculate_empty_returns_null`. -/
theorem calculate_empty_returns_null_witness :
    Calculator.calculate
        { expression := "", result := "0", lastResult := some 5, memory := 1,
          isNewExpression := true, angleMode := AngleMode.deg }
      = (.ok none,
        { expression := "", result := "0", lastResult := some 5, memory := 1,
          isNewExpression := true, angleMode := AngleMode.deg }) :=
  calculate_empty_returns_null _ rfl

end WebCalc
